import Mathlib

/-!
Verification of the password-analysis engine of the PSChecker repository
(`src/server/routes/password-analysis.ts`).

JavaScript numbers appearing here are integer-valued except for the
entropy / crack-time values, which are modelled as exact reals (`ℝ`);
the `parseInt` result, which can be `NaN`, is modelled by `JsIntVal`.
Strings are modelled by Lean `String` (one `Char` per Unicode scalar).
-/

namespace PSChecker

/-- The `COMMON_PASSWORDS` array (lines 8-20 of the source), duplicates
included exactly as in the source. -/
def COMMON_PASSWORDS : List String := [
  "password", "123456", "123456789", "qwerty", "abc123", "password123",
  "admin", "letmein", "welcome", "monkey", "1234567890", "dragon",
  "pass", "master", "hello", "freedom", "whatever", "qazwsx",
  "trustno1", "jordan", "harley", "robert", "matthew", "jordan23",
  "password1", "000000", "superman", "jennifer", "joshua", "hunter",
  "baseball", "michael", "tigger", "michelle", "jordan", "mustang",
  "liverpool", "football", "access", "buster", "soccer", "hockey",
  "killer", "george", "computer", "michelle", "jessica", "pepper",
  "prince", "shadow", "cheese", "dakota", "sunshine", "iloveyou",
  "princess", "hannah", "red123", "alexander", "slayer", "qwerty123",
  "ashley", "thomas", "helicopter", "joshua", "mustang", "thunder"]

/-- The character class of the regex `[!@#$%^&*(),.?":\x7b\x7d|<>]`
used both by `calculateEntropy` and by the `checks` map. -/
def specialChars : List Char := "!@#$%^&*(),.?\":\x7b\x7d|<>".toList

/-- JavaScript `toLowerCase`, character-wise (ASCII case mapping; every
denylist entry is ASCII). -/
def jsToLowerCase (s : String) : String := String.mk (s.toList.map Char.toLower)

/-- JavaScript `toUpperCase`, character-wise (hex digests are ASCII). -/
def jsToUpperCase (s : String) : String := String.mk (s.toList.map Char.toUpper)

/-- JavaScript `String.prototype.split` with a one-character separator:
`"".split(c)` is `[""]`, and separators delimit possibly empty fields. -/
def splitOnChar (sep : Char) : List Char → List (List Char)
  | [] => [[]]
  | c :: rest =>
    let r := splitOnChar sep rest
    if c = sep then [] :: r
    else (c :: r.headD []) :: r.tail

/-- JavaScript `String.prototype.trim` (whitespace stripped from both
ends; the strings trimmed here are digit runs). -/
def jsTrim (l : List Char) : List Char :=
  ((l.dropWhile Char.isWhitespace).reverse.dropWhile Char.isWhitespace).reverse

/-- Regex `/[a-z]/.test(password)` (ASCII lowercase letter present). -/
def hasLowercaseChar (p : String) : Bool := p.toList.any Char.isLower

/-- Regex `/[A-Z]/.test(password)` (ASCII uppercase letter present). -/
def hasUppercaseChar (p : String) : Bool := p.toList.any Char.isUpper

/-- Regex `/\d/.test(password)` (ASCII digit present). -/
def hasNumberChar (p : String) : Bool := p.toList.any Char.isDigit

/-- Regex `/[!@#$%^&*(),.?":\x7b\x7d|<>]/.test(password)`. -/
def hasSpecialChar (p : String) : Bool :=
  p.toList.any fun c => specialChars.contains c

/-- The `charSpace` accumulated in `calculateEntropy` (lines 23-32). -/
def charSpace (p : String) : ℕ :=
  (if hasLowercaseChar p then 26 else 0) +
  (if hasUppercaseChar p then 26 else 0) +
  (if hasNumberChar p then 10 else 0) +
  (if hasSpecialChar p then 32 else 0)

/-- `calculateEntropy` (lines 22-35):
`password.length * Math.log2(charSpace || 1)`, over exact reals. -/
noncomputable def calculateEntropy (p : String) : ℝ :=
  (p.length : ℝ) * Real.logb 2 ((if charSpace p = 0 then 1 else charSpace p : ℕ) : ℝ)

/-- The `{ seconds, display }` pair returned by `calculateCrackTime`. -/
structure CrackTime where
  seconds : ℝ
  display : String

/-- `calculateCrackTime` (lines 37-53).  `Math.round` is Mathlib's
`round` (round half towards positive infinity, identical on the
non-negative values occurring here). -/
noncomputable def calculateCrackTime (entropy : ℝ) : CrackTime :=
  let guessesPerSecond : ℝ := 1000000000
  let totalCombinations : ℝ := (2 : ℝ) ^ entropy
  let averageGuesses : ℝ := totalCombinations / 2
  let seconds : ℝ := averageGuesses / guessesPerSecond
  if seconds < 1 then ⟨seconds, "Instantly"⟩
  else if seconds < 60 then ⟨seconds, toString (round seconds) ++ " seconds"⟩
  else if seconds < 3600 then ⟨seconds, toString (round (seconds / 60)) ++ " minutes"⟩
  else if seconds < 86400 then ⟨seconds, toString (round (seconds / 3600)) ++ " hours"⟩
  else if seconds < 2629746 then ⟨seconds, toString (round (seconds / 86400)) ++ " days"⟩
  else if seconds < 31556952 then ⟨seconds, toString (round (seconds / 2629746)) ++ " months"⟩
  else if seconds < 315569520 then ⟨seconds, toString (round (seconds / 31556952)) ++ " years"⟩
  else if seconds < 3155695200 then ⟨seconds, toString (round (seconds / 315569520)) ++ " decades"⟩
  else ⟨seconds, "Centuries"⟩

/-- The `checks` map of `analyzePassword` (lines 76-83). -/
structure Checks where
  hasLength : Bool
  hasUppercase : Bool
  hasLowercase : Bool
  hasNumbers : Bool
  hasSpecialChars : Bool
  isCommon : Bool
deriving DecidableEq, Repr

/-- A JavaScript number as produced by `parseInt`: an integer or `NaN`
(`NaN` arises from a breach-corpus line whose count is not numeric). -/
inductive JsIntVal where
  | nan : JsIntVal
  | val : ℤ → JsIntVal
deriving DecidableEq, Repr

/-- The `PasswordAnalysisResponse` shape (shared API types): the
`isBreached` / `breachCount` fields are optional and absent (`none`)
until the orchestrator sets them. -/
structure AnalysisResult where
  score : ℤ
  strength : String
  color : String
  suggestions : List String
  entropy : ℝ
  crackTime : String
  timeToCrack : CrackTime
  checks : Checks
  isBreached : Option Bool := none
  breachCount : Option JsIntVal := none

/-- JavaScript line terminators, which `.` in a regex does not match. -/
def isLineTerminator (c : Char) : Bool :=
  c == '\n' || c == '\r' || c == Char.ofNat 0x2028 || c == Char.ofNat 0x2029

/-- Scans a character list for three consecutive characters satisfying
`f`; the common shape of the three pattern-detection regex tests. -/
def tripleScan (f : Char → Char → Char → Bool) : List Char → Bool
  | a :: b :: c :: rest => f a b c || tripleScan f (b :: c :: rest)
  | _ => false

/-- Regex `/(.)\1\x7b2,\x7d/.test(password)` (line 112): some character —
other than a line terminator, which `.` does not match — repeated three
or more times consecutively. -/
def hasRepeatedChars (p : String) : Bool :=
  tripleScan (fun a b c => !isLineTerminator a && a == b && b == c) p.toList

/-- The nine three-digit alternatives of the regex on line 113. -/
def digitTriples : List (List Char) :=
  [['0','1','2'], ['1','2','3'], ['2','3','4'], ['3','4','5'], ['4','5','6'],
   ['5','6','7'], ['6','7','8'], ['7','8','9'], ['8','9','0']]

/-- Regex `/012|123|234|345|456|567|678|789|890/.test(password)`
(line 113). -/
def hasSequentialNumbers (p : String) : Bool :=
  tripleScan (fun a b c => digitTriples.contains [a, b, c]) p.toList

/-- The twenty-four three-letter alternatives of the regex on line 114. -/
def letterTriples : List (List Char) :=
  [['a','b','c'], ['b','c','d'], ['c','d','e'], ['d','e','f'], ['e','f','g'],
   ['f','g','h'], ['g','h','i'], ['h','i','j'], ['i','j','k'], ['j','k','l'],
   ['k','l','m'], ['l','m','n'], ['m','n','o'], ['n','o','p'], ['o','p','q'],
   ['p','q','r'], ['q','r','s'], ['r','s','t'], ['s','t','u'], ['t','u','v'],
   ['u','v','w'], ['v','w','x'], ['w','x','y'], ['x','y','z']]

/-- Regex `/abc|bcd|...|xyz/i.test(password)` (line 114); the `i` flag is
modelled by lowercasing the scanned characters. -/
def hasSequentialLetters (p : String) : Bool :=
  tripleScan (fun a b c => letterTriples.contains [a, b, c])
    (p.toList.map Char.toLower)

/-- The `checks` record computed on lines 76-83.  `String.toLower`
models `toLowerCase` (all denylist entries are ASCII). -/
def checksFor (password : String) : Checks where
  hasLength := decide (8 ≤ password.length)
  hasUppercase := hasUppercaseChar password
  hasLowercase := hasLowercaseChar password
  hasNumbers := hasNumberChar password
  hasSpecialChars := hasSpecialChar password
  isCommon := COMMON_PASSWORDS.contains (jsToLowerCase password)

/-- The strength tier if/else chain (lines 138-156), score to tier. -/
def strengthOfScore (score : ℤ) : String :=
  if 90 ≤ score then "Very Strong"
  else if 75 ≤ score then "Strong"
  else if 60 ≤ score then "Good"
  else if 40 ≤ score then "Fair"
  else if 20 ≤ score then "Weak"
  else "Very Weak"

/-- The display color fixed alongside each tier (lines 138-156). -/
def colorOfScore (score : ℤ) : String :=
  if 90 ≤ score then "#10b981"
  else if 75 ≤ score then "#22c55e"
  else if 60 ≤ score then "#3b82f6"
  else if 40 ≤ score then "#eab308"
  else if 20 ≤ score then "#f97316"
  else "#ef4444"

/-- The suggestion list built on lines 119-132, in source push order. -/
def suggestionsFor (password : String) (checks : Checks) : List String :=
  let suggestions : List String :=
    (if checks.hasLength then [] else ["Use at least 8 characters"]) ++
    (if checks.hasUppercase then [] else ["Add uppercase letters (A-Z)"]) ++
    (if checks.hasLowercase then [] else ["Add lowercase letters (a-z)"]) ++
    (if checks.hasNumbers then [] else ["Include numbers (0-9)"]) ++
    (if checks.hasSpecialChars then [] else ["Add special characters (!@#$%^&*)"]) ++
    (if password.length < 12 then ["Consider using 12+ characters for better security"] else []) ++
    (if checks.isCommon then ["Avoid common passwords"] else []) ++
    (if hasRepeatedChars password then ["Avoid repeating characters"] else []) ++
    (if hasSequentialNumbers password then ["Avoid sequential numbers"] else [])
  if suggestions.isEmpty then
    ["Excellent! Your password meets all security criteria"]
  else suggestions

/-- `analyzePassword` (lines 55-168).  The empty-password branch is the
canned result of lines 57-73; otherwise scoring follows lines 89-116
(the three entropy-bonus tests compare exact reals), suggestions lines
119-132, and the tier/color chain lines 134-156.  The `entropy` output
field is `Math.round(entropy * 10) / 10`. -/
noncomputable def analyzePassword (password : String) : AnalysisResult :=
  if password = "" then
    { score := 0
      strength := "Very Weak"
      color := "#ef4444"
      suggestions := ["Enter a password to get started"]
      entropy := 0
      crackTime := "Instantly"
      timeToCrack := ⟨0, "Instantly"⟩
      checks := ⟨false, false, false, false, false, false⟩ }
  else
    let checks := checksFor password
    let entropy := calculateEntropy password
    let timeToCrack := calculateCrackTime entropy
    let score : ℤ :=
      (if checks.hasLength then 20 else 0) +
      (if 12 ≤ password.length then 10 else 0) +
      (if 16 ≤ password.length then 10 else 0) +
      (if 20 ≤ password.length then 5 else 0) +
      (if checks.hasUppercase then 15 else 0) +
      (if checks.hasLowercase then 15 else 0) +
      (if checks.hasNumbers then 15 else 0) +
      (if checks.hasSpecialChars then 20 else 0) -
      (if checks.isCommon then 40 else 0) +
      (if (40 : ℝ) < entropy then 5 else 0) +
      (if (60 : ℝ) < entropy then 10 else 0) +
      (if (80 : ℝ) < entropy then 10 else 0) -
      (if hasRepeatedChars password then 10 else 0) -
      (if hasSequentialNumbers password then 10 else 0) -
      (if hasSequentialLetters password then 10 else 0)
    let score : ℤ := max 0 (min 100 score)
    { score := score
      strength := strengthOfScore score
      color := colorOfScore score
      suggestions := suggestionsFor password checks
      entropy := ((round (entropy * 10) : ℤ) : ℝ) / 10
      crackTime := timeToCrack.display
      timeToCrack := timeToCrack
      checks := checks }

/-- JavaScript `parseInt` on the strings reaching it here (radix-10
integer literals, possibly signed, further characters ignored);
`JsIntVal.nan` when no leading digits exist. -/
def jsParseInt (s : String) : JsIntVal :=
  let signAndRest : ℤ × List Char :=
    match s.toList with
    | '-' :: t => (-1, t)
    | '+' :: t => (1, t)
    | t => (1, t)
  let digits := signAndRest.2.takeWhile Char.isDigit
  if digits.isEmpty then .nan
  else .val (signAndRest.1 *
    (digits.foldl (fun n c => 10 * n + ((c.toNat : ℤ) - 48)) 0))

/-- The `{ isBreached, count }` pair produced by `checkPasswordBreach`. -/
structure BreachResult where
  isBreached : Bool
  count : JsIntVal
deriving DecidableEq, Repr

/-- A `breachCache` entry (line 171). -/
structure CacheEntry where
  isBreached : Bool
  count : JsIntVal
  timestamp : ℤ

/-- The in-memory `breachCache` map, password to entry. -/
def BreachCache : Type := String → Option CacheEntry

/-- `breachCache.set(password, ...)` with the current time stamped. -/
def cacheInsert (cache : BreachCache) (password : String) (r : BreachResult)
    (now : ℤ) : BreachCache :=
  fun q => if q = password then some ⟨r.isBreached, r.count, now⟩ else cache q

/-- The outcome of the `fetch` call: a rejected promise (network error)
or a response with its `ok` flag and body text. -/
inductive FetchOutcome where
  | networkError : FetchOutcome
  | response : Bool → String → FetchOutcome

/-- The scan loop of lines 196-203: split each line on a colon and
compare the first part against the hash suffix.  `Except.error` models
the `TypeError` thrown by `count.trim()` when the matching line has no
colon (`count` is `undefined`); `some` carries the parsed count of the
first matching line, `none` means no line matched. -/
def scanLines (sfx : String) : List String → Except Unit (Option JsIntVal)
  | [] => .ok none
  | line :: rest =>
    let parts := (splitOnChar ':' line.toList).map String.mk
    let hashSuffix := parts.headD ""
    if hashSuffix = sfx then
      match parts[1]? with
      | none => .error ()
      | some countStr => .ok (some (jsParseInt (String.mk (jsTrim countStr.toList))))
    else scanLines sfx rest

/-- The body of the `try` block of `checkPasswordBreach` (lines 174-207):
cache lookup with the 1-hour freshness test, then the SHA-1 range
protocol.  `sha1hex` is the SHA-1 hex digest treated as an oracle (no
claim depends on its values); `fetchEnv` maps the requested 5-character
range prefix to the network outcome; `now` is `Date.now()`.
`Except.error` is a thrown exception. -/
def breachAttempt (sha1hex : String → String) (fetchEnv : String → FetchOutcome)
    (cache : BreachCache) (now : ℤ) (password : String) :
    Except Unit (BreachResult × BreachCache) :=
  let fetchPath : Except Unit (BreachResult × BreachCache) :=
    let sha1Hash := jsToUpperCase (sha1hex password)
    let pfx := String.mk (sha1Hash.toList.take 5)
    let sfx := String.mk (sha1Hash.toList.drop 5)
    match fetchEnv pfx with
    | .networkError => .error ()
    | .response ok body =>
      if !ok then .error ()
      else
        match scanLines sfx ((splitOnChar '\n' body.toList).map String.mk) with
        | .error e => .error e
        | .ok (some cnt) =>
          let result : BreachResult := ⟨true, cnt⟩
          .ok (result, cacheInsert cache password result now)
        | .ok none =>
          let result : BreachResult := ⟨false, .val 0⟩
          .ok (result, cacheInsert cache password result now)
  match cache password with
  | some cached =>
    if now - cached.timestamp < 3600000 then
      .ok (⟨cached.isBreached, cached.count⟩, cache)
    else fetchPath
  | none => fetchPath

/-- `checkPasswordBreach` (lines 173-212): the `catch` swallows any
thrown error and returns `\x7b isBreached: false, count: 0 \x7d`, leaving the
cache untouched. -/
def checkPasswordBreach (sha1hex : String → String)
    (fetchEnv : String → FetchOutcome) (cache : BreachCache) (now : ℤ)
    (password : String) : BreachResult × BreachCache :=
  match breachAttempt sha1hex fetchEnv cache now password with
  | .ok r => r
  | .error _ => (⟨false, .val 0⟩, cache)

/-- Digit grouping of `Number.prototype.toLocaleString()` under the
default `en` locale: thousands separated by commas.  Operates on the
reversed digit list. -/
def groupRev : List Char → List Char
  | a :: b :: c :: rest@(_ :: _) => a :: b :: c :: ',' :: groupRev rest
  | l => l

/-- `breachInfo.count.toLocaleString()` (line 232). -/
def jsToLocaleString : JsIntVal → String
  | .nan => "NaN"
  | .val n =>
    (if n < 0 then "-" else "") ++
      String.mk (groupRev (toString n.natAbs).toList.reverse).reverse

/-- The breach-warning suggestion prepended on line 232. -/
def breachWarning (count : JsIntVal) : String :=
  "⚠️ This password has been found in " ++ jsToLocaleString count ++
    " data breaches. Choose a different password."

/-- The analysis part of `handlePasswordAnalysis` (lines 222-237):
analyze, then — for a non-empty password — run the breach check, set
the optional breach fields, and if breached prepend the warning, cap
the score at 30 and re-derive tier and color from the two-level
mapping.  Persistence side effects (lines 239-252) involve no analysis
logic and are not modelled.  Returns the response and the breach cache
as left by the checker. -/
noncomputable def handlePasswordAnalysis (sha1hex : String → String)
    (fetchEnv : String → FetchOutcome) (cache : BreachCache) (now : ℤ)
    (password : String) : AnalysisResult × BreachCache :=
  let analysis := analyzePassword password
  if 0 < password.length then
    let checkRes := checkPasswordBreach sha1hex fetchEnv cache now password
    let breachInfo := checkRes.1
    let analysis := { analysis with
      isBreached := some breachInfo.isBreached
      breachCount := some breachInfo.count }
    if breachInfo.isBreached then
      let cappedScore := min analysis.score 30
      ({ analysis with
          suggestions := breachWarning breachInfo.count :: analysis.suggestions
          score := cappedScore
          strength := if 25 ≤ cappedScore then "Weak" else "Very Weak"
          color := if 25 ≤ cappedScore then "#f97316" else "#ef4444" },
        checkRes.2)
    else (analysis, checkRes.2)
  else (analysis, cache)


/-- Modelled from the spec (4.2): a three-digit ascending run, digits
`d`, `d+1`, `d+2`. -/
def ascDigitTriple (a b c : Char) : Bool :=
  a.isDigit && b.isDigit && c.isDigit &&
    (b.toNat == a.toNat + 1) && (c.toNat == b.toNat + 1)

/-- Modelled from the spec (4.2): a three-letter ascending alphabetic
run of lowercase letters (applied after case folding). -/
def ascLetterTriple (a b c : Char) : Bool :=
  a.isLower && b.isLower && c.isLower &&
    (b.toNat == a.toNat + 1) && (c.toNat == b.toNat + 1)

/-- The spec-side digit-triple predicate on list-of-three form, used to
compare the source alternation with the spec wording. -/
def digitTripleSpec : List Char → Bool
  | [a, b, c] => ascDigitTriple a b c || (a == '8' && b == '9' && c == '0')
  | _ => false

/-- The spec-side letter-triple predicate on list-of-three form. -/
def letterTripleSpec : List Char → Bool
  | [a, b, c] => ascLetterTriple a b c
  | _ => false

/-- Modelled from the spec (4.2): the password contains a three-digit
ascending run somewhere; the spec-side counterpart of
`hasSequentialNumbers`. -/
def ascDigitScan (p : String) : Bool :=
  tripleScan (fun a b c => ascDigitTriple a b c) p.toList

/-- Rank of the six ordered strength tiers (spec section 3 calls them
"six ordered levels"), for stating monotonicity of the tier in the
score. -/
def tierLevel : String → ℕ
  | "Very Strong" => 5
  | "Strong" => 4
  | "Good" => 3
  | "Fair" => 2
  | "Weak" => 1
  | _ => 0

/-- Modelled from the spec (4.3): seconds to 50 percent success at ten
to the ninth guesses per second. -/
noncomputable def crackSecondsSpec (entropy : ℝ) : ℝ :=
  (2 : ℝ) ^ entropy / 2 / 10 ^ 9

/-- Modelled from the spec (4.3): the display bucket for a seconds
value, ascending thresholds, counts rounded to the nearest unit. -/
noncomputable def crackDisplaySpec (seconds : ℝ) : String :=
  if seconds < 1 then "Instantly"
  else if seconds < 60 then toString (round seconds) ++ " seconds"
  else if seconds < 3600 then toString (round (seconds / 60)) ++ " minutes"
  else if seconds < 86400 then toString (round (seconds / 3600)) ++ " hours"
  else if seconds < 2629746 then toString (round (seconds / 86400)) ++ " days"
  else if seconds < 31556952 then toString (round (seconds / 2629746)) ++ " months"
  else if seconds < 315569520 then toString (round (seconds / 31556952)) ++ " years"
  else if seconds < 3155695200 then toString (round (seconds / 315569520)) ++ " decades"
  else "Centuries"

/-- Decidable form of the entropy-bonus test `entropy > c`: since
`calculateEntropy p = log2(m ^ length)` for `m = charSpace || 1`, the
comparison is equivalent to `2 ^ c < m ^ length` (proved in
`entropy_gt_iff` below); used to evaluate concrete scores. -/
def entropyExceeds (p : String) (c : ℕ) : Bool :=
  decide (2 ^ c < (if charSpace p = 0 then 1 else charSpace p) ^ p.length)

/-- Computable form of the raw (pre-clamp) score of lines 89-114, with
the three entropy-bonus tests replaced by `entropyExceeds`; proved
equal to the score of `analyzePassword` in `analyzePassword_score`. -/
def scoreNum (password : String) : ℤ :=
  (if (checksFor password).hasLength then 20 else 0) +
  (if 12 ≤ password.length then 10 else 0) +
  (if 16 ≤ password.length then 10 else 0) +
  (if 20 ≤ password.length then 5 else 0) +
  (if (checksFor password).hasUppercase then 15 else 0) +
  (if (checksFor password).hasLowercase then 15 else 0) +
  (if (checksFor password).hasNumbers then 15 else 0) +
  (if (checksFor password).hasSpecialChars then 20 else 0) -
  (if (checksFor password).isCommon then 40 else 0) +
  (if entropyExceeds password 40 then 5 else 0) +
  (if entropyExceeds password 60 then 10 else 0) +
  (if entropyExceeds password 80 then 10 else 0) -
  (if hasRepeatedChars password then 10 else 0) -
  (if hasSequentialNumbers password then 10 else 0) -
  (if hasSequentialLetters password then 10 else 0)

/-- First helper lemma block: relating the real-valued entropy tests to
decidable natural-number comparisons. -/
lemma calculateEntropy_of_charSpace_zero (p : String) (h : charSpace p = 0) :
    calculateEntropy p = 0 := by
  unfold calculateEntropy
  rw [if_pos h]
  simp

lemma calculateEntropy_of_charSpace_ne_zero (p : String) (h : charSpace p ≠ 0) :
    calculateEntropy p = (p.length : ℝ) * Real.logb 2 (charSpace p : ℝ) := by
  unfold calculateEntropy
  rw [if_neg h]

lemma entropy_gt_iff (p : String) (c : ℕ) :
    ((c : ℝ) < calculateEntropy p) ↔
      2 ^ c < (if charSpace p = 0 then 1 else charSpace p) ^ p.length := by
  unfold calculateEntropy
  set m : ℕ := if charSpace p = 0 then 1 else charSpace p with hm
  have hm1 : 0 < m := by
    rw [hm]; split
    · omega
    · exact Nat.pos_of_ne_zero (by assumption)
  have hmR : (0 : ℝ) < (m : ℝ) ^ p.length := by positivity
  rw [show (p.length : ℝ) * Real.logb 2 (m : ℝ) = Real.logb 2 ((m : ℝ) ^ p.length) by
    rw [Real.logb_pow]]
  rw [Real.lt_logb_iff_rpow_lt (by norm_num) hmR]
  rw [Real.rpow_natCast]
  exact_mod_cast Iff.rfl

lemma entropy_ite_eq (p : String) (c : ℕ) (k : ℤ) :
    (if ((c : ℕ) : ℝ) < calculateEntropy p then k else 0) =
      (if entropyExceeds p c then k else 0) := by
  by_cases hc : 2 ^ c < (if charSpace p = 0 then 1 else charSpace p) ^ p.length
  · have hpos : entropyExceeds p c = true := by
      unfold entropyExceeds; exact decide_eq_true hc
    rw [if_pos ((entropy_gt_iff p c).mpr hc), if_pos hpos]
  · have hneg : entropyExceeds p c = false := by
      unfold entropyExceeds; exact decide_eq_false hc
    rw [if_neg (fun hlt => hc ((entropy_gt_iff p c).mp hlt)),
      if_neg (by rw [hneg]; exact Bool.false_ne_true)]

lemma analyzePassword_score (p : String) (h : p ≠ "") :
    (analyzePassword p).score = max 0 (min 100 (scoreNum p)) := by
  simp only [analyzePassword, if_neg h, scoreNum]
  rw [show (40 : ℝ) = ((40 : ℕ) : ℝ) by norm_num,
      show (60 : ℝ) = ((60 : ℕ) : ℝ) by norm_num,
      show (80 : ℝ) = ((80 : ℕ) : ℝ) by norm_num,
      entropy_ite_eq p 40 5, entropy_ite_eq p 60 10, entropy_ite_eq p 80 10]

lemma analyzePassword_strength (p : String) (h : p ≠ "") :
    (analyzePassword p).strength = strengthOfScore (max 0 (min 100 (scoreNum p))) := by
  simp only [analyzePassword, if_neg h, scoreNum]
  rw [show (40 : ℝ) = ((40 : ℕ) : ℝ) by norm_num,
      show (60 : ℝ) = ((60 : ℕ) : ℝ) by norm_num,
      show (80 : ℝ) = ((80 : ℕ) : ℝ) by norm_num,
      entropy_ite_eq p 40 5, entropy_ite_eq p 60 10, entropy_ite_eq p 80 10]

lemma analyzePassword_checks (p : String) (h : p ≠ "") :
    (analyzePassword p).checks = checksFor p := by
  simp only [analyzePassword, if_neg h]

lemma analyzePassword_suggestions (p : String) (h : p ≠ "") :
    (analyzePassword p).suggestions = suggestionsFor p (checksFor p) := by
  simp only [analyzePassword, if_neg h]

lemma analyzePassword_entropy (p : String) (h : p ≠ "") :
    (analyzePassword p).entropy = ((round (calculateEntropy p * 10) : ℤ) : ℝ) / 10 := by
  simp only [analyzePassword, if_neg h]

lemma analyzePassword_crackTime (p : String) (h : p ≠ "") :
    (analyzePassword p).crackTime = (calculateCrackTime (calculateEntropy p)).display := by
  simp only [analyzePassword, if_neg h]

lemma charEq (a b : Char) (h : a.toNat = b.toNat) : a = b := by
  cases a; cases b
  congr 1
  exact UInt32.toNat.inj h

lemma isDigit_toNat (a : Char) (h : a.isDigit = true) :
    48 ≤ a.toNat ∧ a.toNat ≤ 57 := by
  simp [Char.isDigit] at h
  exact h

lemma isLower_toNat (a : Char) (h : a.isLower = true) :
    97 ≤ a.toNat ∧ a.toNat ≤ 122 := by
  simp [Char.isLower] at h
  exact h

lemma ascDigitTriple_imp_mem (a b c : Char) (h : ascDigitTriple a b c = true) :
    [a, b, c] ∈ digitTriples := by
  unfold ascDigitTriple at h
  simp only [Bool.and_eq_true, beq_iff_eq] at h
  obtain ⟨⟨⟨⟨ha, hb⟩, hc⟩, hb1⟩, hc1⟩ := h
  obtain ⟨ha48, ha57⟩ := isDigit_toNat a ha
  obtain ⟨hc48, hc57⟩ := isDigit_toNat c hc
  have hofn : ∀ n : ℕ, n < 58 → (Char.ofNat n).toNat = n := by decide
  have hmem : ∀ n : ℕ, n < 56 → 48 ≤ n →
      [Char.ofNat n, Char.ofNat (n + 1), Char.ofNat (n + 2)] ∈ digitTriples := by decide
  have hub : a.toNat ≤ 55 := by omega
  have ea : a = Char.ofNat a.toNat := charEq _ _ (by rw [hofn _ (by omega)])
  have eb : b = Char.ofNat (a.toNat + 1) := charEq _ _ (by rw [hofn _ (by omega)]; omega)
  have ec : c = Char.ofNat (a.toNat + 2) := charEq _ _ (by rw [hofn _ (by omega)]; omega)
  rw [ea, eb, ec]
  exact hmem a.toNat (by omega) ha48

lemma ascLetterTriple_imp_mem (a b c : Char) (h : ascLetterTriple a b c = true) :
    [a, b, c] ∈ letterTriples := by
  unfold ascLetterTriple at h
  simp only [Bool.and_eq_true, beq_iff_eq] at h
  obtain ⟨⟨⟨⟨ha, hb⟩, hc⟩, hb1⟩, hc1⟩ := h
  obtain ⟨ha97, ha122⟩ := isLower_toNat a ha
  obtain ⟨hc97, hc122⟩ := isLower_toNat c hc
  have hofn : ∀ n : ℕ, n < 123 → (Char.ofNat n).toNat = n := by decide
  have hmem : ∀ n : ℕ, n < 121 → 97 ≤ n →
      [Char.ofNat n, Char.ofNat (n + 1), Char.ofNat (n + 2)] ∈ letterTriples := by decide
  have hub : a.toNat ≤ 120 := by omega
  have ea : a = Char.ofNat a.toNat := charEq _ _ (by rw [hofn _ (by omega)])
  have eb : b = Char.ofNat (a.toNat + 1) := charEq _ _ (by rw [hofn _ (by omega)]; omega)
  have ec : c = Char.ofNat (a.toNat + 2) := charEq _ _ (by rw [hofn _ (by omega)]; omega)
  rw [ea, eb, ec]
  exact hmem a.toNat (by omega) ha97

lemma contains_digitTriples_eq (a b c : Char) :
    digitTriples.contains [a, b, c] =
      (ascDigitTriple a b c || (a == '8' && b == '9' && c == '0')) := by
  by_cases h : [a, b, c] ∈ digitTriples
  · have h1 : digitTriples.contains [a, b, c] = true := List.elem_eq_true_of_mem h
    have h2 : digitTripleSpec [a, b, c] = true := by
      have hall : ∀ t ∈ digitTriples, digitTripleSpec t = true := by decide
      exact hall [a, b, c] h
    rw [h1]
    exact h2.symm
  · have h1 : digitTriples.contains [a, b, c] = false := by
      rcases hc : digitTriples.contains [a, b, c] with _ | _
      · rfl
      · exact absurd (List.mem_of_elem_eq_true hc) h
    rw [h1]
    rcases hrhs : (ascDigitTriple a b c || (a == '8' && b == '9' && c == '0')) with _ | _
    · rfl
    · rcases Bool.or_eq_true_iff.mp hrhs with ha | h890
      · exact absurd (ascDigitTriple_imp_mem a b c ha) h
      · simp only [Bool.and_eq_true, beq_iff_eq] at h890
        obtain ⟨⟨rfl, rfl⟩, rfl⟩ := h890
        exact absurd (by decide) h

lemma contains_letterTriples_eq (a b c : Char) :
    letterTriples.contains [a, b, c] = ascLetterTriple a b c := by
  by_cases h : [a, b, c] ∈ letterTriples
  · have h1 : letterTriples.contains [a, b, c] = true := List.elem_eq_true_of_mem h
    have h2 : letterTripleSpec [a, b, c] = true := by
      have hall : ∀ t ∈ letterTriples, letterTripleSpec t = true := by decide
      exact hall [a, b, c] h
    rw [h1]
    exact h2.symm
  · have h1 : letterTriples.contains [a, b, c] = false := by
      rcases hc : letterTriples.contains [a, b, c] with _ | _
      · rfl
      · exact absurd (List.mem_of_elem_eq_true hc) h
    rw [h1]
    rcases hrhs : ascLetterTriple a b c with _ | _
    · rfl
    · exact absurd (ascLetterTriple_imp_mem a b c hrhs) h

lemma tripleScan_iff (f : Char → Char → Char → Bool) (l : List Char) :
    tripleScan f l = true ↔
      ∃ u a b c v, l = u ++ a :: b :: c :: v ∧ f a b c = true := by
  induction l with
  | nil =>
    simp only [tripleScan]
    constructor
    · intro h; cases h
    · rintro ⟨u, a, b, c, v, h, -⟩
      simp at h
  | cons x tl ih =>
    match tl, ih with
    | [], _ =>
      simp only [tripleScan]
      constructor
      · intro h; cases h
      · rintro ⟨u, a, b, c, v, h, -⟩
        rcases u with _ | ⟨z, u⟩ <;> simp_all
    | [y], _ =>
      simp only [tripleScan]
      constructor
      · intro h; cases h
      · rintro ⟨u, a, b, c, v, h, -⟩
        rcases u with _ | ⟨z, u⟩
        · simp at h
        · rcases u with _ | ⟨w, u⟩ <;> simp at h
    | y :: z :: rest, ih =>
      rw [tripleScan]
      constructor
      · intro h
        rcases Bool.or_eq_true_iff.mp h with h | h
        · exact ⟨[], x, y, z, rest, rfl, h⟩
        · obtain ⟨u, a, b, c, v, he, hf⟩ := ih.mp h
          exact ⟨x :: u, a, b, c, v, by rw [he, List.cons_append], hf⟩
      · rintro ⟨u, a, b, c, v, he, hf⟩
        rcases u with _ | ⟨w, u⟩
        · simp only [List.nil_append, List.cons.injEq] at he
          obtain ⟨rfl, rfl, rfl, rfl⟩ := he
          exact Bool.or_eq_true_iff.mpr (Or.inl hf)
        · simp only [List.cons_append, List.cons.injEq] at he
          obtain ⟨rfl, htl⟩ := he
          exact Bool.or_eq_true_iff.mpr (Or.inr (ih.mpr ⟨u, a, b, c, v, htl, hf⟩))

lemma hasRepeatedChars_iff (p : String) :
    hasRepeatedChars p = true ↔
      ∃ u a v, isLineTerminator a = false ∧
        p.toList = u ++ a :: a :: a :: v := by
  unfold hasRepeatedChars
  rw [tripleScan_iff]
  constructor
  · rintro ⟨u, a, b, c, v, he, hf⟩
    simp only [Bool.and_eq_true, Bool.not_eq_true', beq_iff_eq] at hf
    obtain ⟨⟨hlt, rfl⟩, rfl⟩ := hf
    exact ⟨u, a, v, hlt, he⟩
  · rintro ⟨u, a, v, hlt, he⟩
    exact ⟨u, a, a, a, v, he, by simp [hlt]⟩

lemma hasSequentialNumbers_iff (p : String) :
    hasSequentialNumbers p = true ↔
      ∃ u a b c v, p.toList = u ++ a :: b :: c :: v ∧
        (ascDigitTriple a b c = true ∨ (a = '8' ∧ b = '9' ∧ c = '0')) := by
  unfold hasSequentialNumbers
  rw [tripleScan_iff]
  constructor
  · rintro ⟨u, a, b, c, v, he, hf⟩
    rw [contains_digitTriples_eq] at hf
    rcases Bool.or_eq_true_iff.mp hf with h | h
    · exact ⟨u, a, b, c, v, he, Or.inl h⟩
    · simp only [Bool.and_eq_true, beq_iff_eq] at h
      exact ⟨u, a, b, c, v, he, Or.inr ⟨h.1.1, h.1.2, h.2⟩⟩
  · rintro ⟨u, a, b, c, v, he, hf⟩
    refine ⟨u, a, b, c, v, he, ?_⟩
    rw [contains_digitTriples_eq]
    rcases hf with h | ⟨rfl, rfl, rfl⟩
    · exact Bool.or_eq_true_iff.mpr (Or.inl h)
    · decide

lemma hasSequentialLetters_iff (p : String) :
    hasSequentialLetters p = true ↔
      ∃ u a b c v, p.toList.map Char.toLower = u ++ a :: b :: c :: v ∧
        ascLetterTriple a b c = true := by
  unfold hasSequentialLetters
  rw [tripleScan_iff]
  constructor
  · rintro ⟨u, a, b, c, v, he, hf⟩
    rw [contains_letterTriples_eq] at hf
    exact ⟨u, a, b, c, v, he, hf⟩
  · rintro ⟨u, a, b, c, v, he, hf⟩
    exact ⟨u, a, b, c, v, he, by rw [contains_letterTriples_eq]; exact hf⟩

lemma triggers_independent (b1 b2 b3 : Bool) :
    ∃ p : String, p ≠ "" ∧ hasRepeatedChars p = b1 ∧
      hasSequentialNumbers p = b2 ∧ hasSequentialLetters p = b3 := by
  rcases b1 <;> rcases b2 <;> rcases b3
  · exact ⟨"x", by decide, by decide, by decide, by decide⟩
  · exact ⟨"abc", by decide, by decide, by decide, by decide⟩
  · exact ⟨"012", by decide, by decide, by decide, by decide⟩
  · exact ⟨"012abc", by decide, by decide, by decide, by decide⟩
  · exact ⟨"qqq", by decide, by decide, by decide, by decide⟩
  · exact ⟨"qqqabc", by decide, by decide, by decide, by decide⟩
  · exact ⟨"qqq012", by decide, by decide, by decide, by decide⟩
  · exact ⟨"qqq012abc", by decide, by decide, by decide, by decide⟩

lemma ascDigitScan_iff (p : String) :
    ascDigitScan p = true ↔
      ∃ u a b c v, p.toList = u ++ a :: b :: c :: v ∧
        ascDigitTriple a b c = true :=
  tripleScan_iff _ _

lemma length_pos_of_ne_empty (p : String) (h : p ≠ "") : 0 < p.length := by
  cases p with
  | mk data =>
    cases data with
    | nil => exact absurd rfl h
    | cons a l => simp [String.length]

lemma tierLevel_mono (s t : ℤ) (h : s ≤ t) :
    tierLevel (strengthOfScore s) ≤ tierLevel (strengthOfScore t) := by
  unfold strengthOfScore
  split_ifs <;> first | decide | omega

lemma analyzePassword_score_bounds (p : String) :
    0 ≤ (analyzePassword p).score ∧ (analyzePassword p).score ≤ 100 := by
  by_cases hp : p = ""
  · subst hp
    constructor <;> decide
  · rw [analyzePassword_score p hp]
    omega


/-- C1: for every non-empty password the breach checker reports
breached with count > 0, the final result has score equal to
min(pre-breach score, 30) — hence at most 30 — its tier is re-derived
by the reduced two-level mapping (capped score at least 25 gives Weak,
otherwise Very Weak) rather than the six-level table, and the
breach-warning suggestion is prepended as the first suggestion. -/
theorem breach_override (sha1hex : String → String)
    (fetchEnv : String → FetchOutcome) (cache : BreachCache) (now : ℤ)
    (p : String) (n : ℤ) (hp : p ≠ "")
    (hb : (checkPasswordBreach sha1hex fetchEnv cache now p).1.isBreached = true)
    (hcnt : (checkPasswordBreach sha1hex fetchEnv cache now p).1.count = .val n)
    (hn : 0 < n) :
    ((handlePasswordAnalysis sha1hex fetchEnv cache now p).1).score =
      min (analyzePassword p).score 30 ∧
    ((handlePasswordAnalysis sha1hex fetchEnv cache now p).1).score ≤ 30 ∧
    ((handlePasswordAnalysis sha1hex fetchEnv cache now p).1).strength =
      (if 25 ≤ ((handlePasswordAnalysis sha1hex fetchEnv cache now p).1).score
        then "Weak" else "Very Weak") ∧
    (((handlePasswordAnalysis sha1hex fetchEnv cache now p).1).strength = "Weak" ∨
      ((handlePasswordAnalysis sha1hex fetchEnv cache now p).1).strength = "Very Weak") ∧
    ((handlePasswordAnalysis sha1hex fetchEnv cache now p).1).suggestions =
      breachWarning ((checkPasswordBreach sha1hex fetchEnv cache now p).1.count) ::
        (analyzePassword p).suggestions := by
  have hpos := length_pos_of_ne_empty p hp
  refine ⟨?_, ?_, ?_, ?_, ?_⟩
  · simp only [handlePasswordAnalysis, if_pos hpos, hb, if_true]
  · simp only [handlePasswordAnalysis, if_pos hpos, hb, if_true]
    exact min_le_right _ _
  · simp only [handlePasswordAnalysis, if_pos hpos, hb, if_true]
  · simp only [handlePasswordAnalysis, if_pos hpos, hb, if_true]
    split_ifs <;> simp
  · simp only [handlePasswordAnalysis, if_pos hpos, hb, if_true]

/-- Witness for `breach_override`: the breach environment answers the
range query with a matching line of count 5 for the password
"password". -/
theorem breach_override_witness :
    ("password" ≠ "") ∧
    (checkPasswordBreach (fun _ => "ABCDEF") (fun _ => .response true "F:5")
      (fun _ => none) 0 "password").1.isBreached = true ∧
    (checkPasswordBreach (fun _ => "ABCDEF") (fun _ => .response true "F:5")
      (fun _ => none) 0 "password").1.count = .val 5 ∧
    ((handlePasswordAnalysis (fun _ => "ABCDEF") (fun _ => .response true "F:5")
      (fun _ => none) 0 "password").1).score =
      min (analyzePassword "password").score 30 ∧
    ((handlePasswordAnalysis (fun _ => "ABCDEF") (fun _ => .response true "F:5")
      (fun _ => none) 0 "password").1).score ≤ 30 ∧
    (((handlePasswordAnalysis (fun _ => "ABCDEF") (fun _ => .response true "F:5")
      (fun _ => none) 0 "password").1).strength = "Weak" ∨
      ((handlePasswordAnalysis (fun _ => "ABCDEF") (fun _ => .response true "F:5")
        (fun _ => none) 0 "password").1).strength = "Very Weak") := by
  have h := breach_override (fun _ => "ABCDEF") (fun _ => .response true "F:5")
    (fun _ => none) 0 "password" 5 (by decide) (by decide) (by decide) (by decide)
  exact ⟨by decide, by decide, by decide, h.1, h.2.1, h.2.2.2.1⟩

/-- C2: the final score always lies in [0, 100]; absent a positive
breach result the tier is exactly the six-level threshold mapping of
the score; and that mapping is monotone in the score (a higher score
never yields a lower tier). -/
theorem score_clamped_tier_monotone :
    (∀ (sha1hex : String → String) (fetchEnv : String → FetchOutcome)
        (cache : BreachCache) (now : ℤ) (p : String),
      0 ≤ ((handlePasswordAnalysis sha1hex fetchEnv cache now p).1).score ∧
      ((handlePasswordAnalysis sha1hex fetchEnv cache now p).1).score ≤ 100 ∧
      (((handlePasswordAnalysis sha1hex fetchEnv cache now p).1).isBreached ≠ some true →
        ((handlePasswordAnalysis sha1hex fetchEnv cache now p).1).strength =
          strengthOfScore ((handlePasswordAnalysis sha1hex fetchEnv cache now p).1).score)) ∧
    (∀ s t : ℤ, s ≤ t →
      tierLevel (strengthOfScore s) ≤ tierLevel (strengthOfScore t)) := by
  constructor
  · intro sha1hex fetchEnv cache now p
    by_cases hp : p = ""
    · subst hp
      exact ⟨le_refl 0, (by norm_num : (0 : ℤ) ≤ 100),
        fun _ => (by decide : ("Very Weak" : String) = strengthOfScore 0)⟩
    · have hpos := length_pos_of_ne_empty p hp
      obtain ⟨hs0, hs100⟩ := analyzePassword_score_bounds p
      rcases hb : (checkPasswordBreach sha1hex fetchEnv cache now p).1.isBreached with _ | _
      · simp only [handlePasswordAnalysis, if_pos hpos, hb, Bool.false_eq_true,
          if_false]
        refine ⟨hs0, hs100, fun _ => ?_⟩
        rw [analyzePassword_strength p hp, analyzePassword_score p hp]
      · simp only [handlePasswordAnalysis, if_pos hpos, hb, if_true]
        refine ⟨by omega, by omega, fun hcontra => absurd rfl hcontra⟩
  · exact tierLevel_mono

/-- Witness for `score_clamped_tier_monotone` at the password "abc"
with a failing breach provider, and at the score pair 10 ≤ 95. -/
theorem score_clamped_tier_monotone_witness :
    (0 ≤ ((handlePasswordAnalysis (fun _ => "") (fun _ => .networkError)
        (fun _ => none) 0 "abc").1).score ∧
      ((handlePasswordAnalysis (fun _ => "") (fun _ => .networkError)
        (fun _ => none) 0 "abc").1).score ≤ 100 ∧
      ((handlePasswordAnalysis (fun _ => "") (fun _ => .networkError)
        (fun _ => none) 0 "abc").1).strength =
        strengthOfScore ((handlePasswordAnalysis (fun _ => "") (fun _ => .networkError)
          (fun _ => none) 0 "abc").1).score) ∧
    tierLevel (strengthOfScore 10) ≤ tierLevel (strengthOfScore 95) := by
  have h := score_clamped_tier_monotone
  obtain ⟨h0, h100, himp⟩ := h.1 (fun _ => "") (fun _ => .networkError)
    (fun _ => none) 0 "abc"
  exact ⟨⟨h0, h100, himp (by decide)⟩, h.2 10 95 (by norm_num)⟩

/-- C3: on a cache miss, a network error, a non-success HTTP status, or
a parse error (a matching corpus line without a colon) each make
`checkPasswordBreach` swallow the failure and return isBreached false
with count 0, leaving the cache untouched; and whenever the checker
reports not-breached the orchestrator still returns the complete
analysis result, only adding the two breach fields. -/
theorem breach_error_fallback (sha1hex : String → String)
    (fetchEnv : String → FetchOutcome) (cache : BreachCache) (now : ℤ)
    (p : String) (hmiss : cache p = none) :
    (fetchEnv (String.mk ((jsToUpperCase (sha1hex p)).toList.take 5)) =
        .networkError →
      checkPasswordBreach sha1hex fetchEnv cache now p =
        (⟨false, .val 0⟩, cache)) ∧
    (∀ body, fetchEnv (String.mk ((jsToUpperCase (sha1hex p)).toList.take 5)) =
        .response false body →
      checkPasswordBreach sha1hex fetchEnv cache now p =
        (⟨false, .val 0⟩, cache)) ∧
    (∀ body, fetchEnv (String.mk ((jsToUpperCase (sha1hex p)).toList.take 5)) =
        .response true body →
      scanLines (String.mk ((jsToUpperCase (sha1hex p)).toList.drop 5))
          ((splitOnChar '\n' body.toList).map String.mk) = .error () →
      checkPasswordBreach sha1hex fetchEnv cache now p =
        (⟨false, .val 0⟩, cache)) ∧
    (p ≠ "" →
      (checkPasswordBreach sha1hex fetchEnv cache now p).1.isBreached = false →
      (handlePasswordAnalysis sha1hex fetchEnv cache now p).1 =
        { analyzePassword p with
            isBreached := some false,
            breachCount :=
              some (checkPasswordBreach sha1hex fetchEnv cache now p).1.count }) := by
  refine ⟨?_, ?_, ?_, ?_⟩
  · intro hfe
    simp only [checkPasswordBreach, breachAttempt, hmiss, hfe]
  · intro body hfe
    simp only [checkPasswordBreach, breachAttempt, hmiss, hfe, Bool.not_false,
      if_true]
  · intro body hfe hscan
    simp only [checkPasswordBreach, breachAttempt, hmiss, hfe, hscan,
      Bool.not_true, Bool.false_eq_true, if_false]
  · intro hp hfalse
    have hpos := length_pos_of_ne_empty p hp
    simp only [handlePasswordAnalysis, if_pos hpos, hfalse, Bool.false_eq_true,
      if_false]

/-- Witness for `breach_error_fallback`: empty cache, network error;
the analysis of "pw" still completes with isBreached false. -/
theorem breach_error_fallback_witness :
    ((fun _ : String => (none : Option CacheEntry)) "pw" = none) ∧
    checkPasswordBreach (fun _ => "ABCDEF") (fun _ => .networkError)
      (fun _ => none) 0 "pw" = (⟨false, .val 0⟩, fun _ => none) ∧
    (handlePasswordAnalysis (fun _ => "ABCDEF") (fun _ => .networkError)
      (fun _ => none) 0 "pw").1 =
      { analyzePassword "pw" with
          isBreached := some false,
          breachCount := some (checkPasswordBreach (fun _ => "ABCDEF")
            (fun _ => .networkError) (fun _ => none) 0 "pw").1.count } := by
  have h := breach_error_fallback (fun _ => "ABCDEF") (fun _ => .networkError)
    (fun _ => none) 0 "pw" rfl
  exact ⟨rfl, h.1 rfl, h.2.2.2 (by decide) (by decide)⟩

/-- C4: the empty password yields the canned result — score 0, tier
Very Weak, entropy 0, exactly one suggestion, all checks false — and
the orchestrator skips the breach step entirely: no breach fields are
set, the result is independent of the breach environment, and the
cache is returned unchanged. -/
theorem empty_password_canned :
    analyzePassword "" =
      { score := 0, strength := "Very Weak", color := "#ef4444",
        suggestions := ["Enter a password to get started"], entropy := 0,
        crackTime := "Instantly", timeToCrack := ⟨0, "Instantly"⟩,
        checks := ⟨false, false, false, false, false, false⟩ } ∧
    (analyzePassword "").suggestions.length = 1 ∧
    (analyzePassword "").isBreached = none ∧
    (analyzePassword "").breachCount = none ∧
    ∀ (sha1hex : String → String) (fetchEnv : String → FetchOutcome)
      (cache : BreachCache) (now : ℤ),
      handlePasswordAnalysis sha1hex fetchEnv cache now "" =
        (analyzePassword "", cache) :=
  ⟨rfl, rfl, rfl, rfl, fun _ _ _ _ => rfl⟩

/-- C5: any password of length at least 16 containing all four
character classes, missing the denylist, and triggering none of the
three structural penalties scores at least 75 and lands in tier Strong
or Very Strong. -/
theorem four_classes_sixteen_strong (p : String) (hlen : 16 ≤ p.length)
    (hl : hasLowercaseChar p = true) (hu : hasUppercaseChar p = true)
    (hn : hasNumberChar p = true) (hs : hasSpecialChar p = true)
    (hc : COMMON_PASSWORDS.contains (jsToLowerCase p) = false)
    (hr : hasRepeatedChars p = false) (hsn : hasSequentialNumbers p = false)
    (hsl : hasSequentialLetters p = false) :
    75 ≤ (analyzePassword p).score ∧
    ((analyzePassword p).strength = "Strong" ∨
      (analyzePassword p).strength = "Very Strong") := by
  have hne : p ≠ "" := by
    intro h0
    rw [h0] at hlen
    exact absurd hlen (by decide)
  have hsc : 105 ≤ scoreNum p := by
    unfold scoreNum
    simp only [checksFor]
    have h8 : decide (8 ≤ p.length) = true := decide_eq_true (by omega)
    simp only [hl, hu, hn, hs, hc, hr, hsn, hsl, h8, if_true, if_false,
      Bool.false_eq_true]
    rw [if_pos (show 12 ≤ p.length by omega), if_pos hlen]
    split_ifs <;> omega
  constructor
  · rw [analyzePassword_score p hne]
    omega
  · rw [analyzePassword_strength p hne]
    have hval : max 0 (min 100 (scoreNum p)) = 100 := by omega
    rw [hval]
    right
    decide

/-- Witness for `four_classes_sixteen_strong` at a 16-character
password with all four classes and no penalty pattern. -/
theorem four_classes_sixteen_strong_witness :
    16 ≤ "Xk9!Wm2@Qp5#Rt8%".length ∧
    75 ≤ (analyzePassword "Xk9!Wm2@Qp5#Rt8%").score ∧
    ((analyzePassword "Xk9!Wm2@Qp5#Rt8%").strength = "Strong" ∨
      (analyzePassword "Xk9!Wm2@Qp5#Rt8%").strength = "Very Strong") := by
  have h := four_classes_sixteen_strong "Xk9!Wm2@Qp5#Rt8%" (by decide) (by decide)
    (by decide) (by decide) (by decide) (by decide) (by decide) (by decide) (by decide)
  exact ⟨by decide, h.1, h.2⟩

/-- C6 counterexample: "890" contains no three-digit ascending run
(8, 9, 0 does not ascend at the last step), yet the sequential-number
penalty fires because the regex alternation includes "890"; the score
of "890" is 5 = 15 (digits) - 10 (penalty). -/
theorem sequential_numbers_890_cex :
    hasSequentialNumbers "890" = true ∧
    ascDigitScan "890" = false ∧
    (analyzePassword "890").score = 5 := by
  refine ⟨by decide, by decide, ?_⟩
  rw [analyzePassword_score "890" (by decide)]
  decide

/-- C6 amended: for every non-empty password, the repeated-character
penalty fires exactly when some character other than a line terminator
occurs three or more times consecutively; the sequential-number
penalty fires exactly when the password contains a three-digit
ascending run or the extra wrap-around triple "890"; the
sequential-letter penalty fires exactly when the case-folded password
contains a three-letter ascending run; and the three triggers are
independent: every subset of them is realized by some password. -/
theorem pattern_penalties_characterized (p : String) (hp : p ≠ "") :
    (hasRepeatedChars p = true ↔
      ∃ u a v, isLineTerminator a = false ∧
        p.toList = u ++ a :: a :: a :: v) ∧
    (hasSequentialNumbers p = true ↔
      ∃ u a b c v, p.toList = u ++ a :: b :: c :: v ∧
        (ascDigitTriple a b c = true ∨ (a = '8' ∧ b = '9' ∧ c = '0'))) ∧
    (hasSequentialLetters p = true ↔
      ∃ u a b c v, p.toList.map Char.toLower = u ++ a :: b :: c :: v ∧
        ascLetterTriple a b c = true) ∧
    (∀ b1 b2 b3 : Bool, ∃ q : String, q ≠ "" ∧ hasRepeatedChars q = b1 ∧
      hasSequentialNumbers q = b2 ∧ hasSequentialLetters q = b3) :=
  ⟨hasRepeatedChars_iff p, hasSequentialNumbers_iff p,
    hasSequentialLetters_iff p, triggers_independent⟩

/-- Witness for `pattern_penalties_characterized` at "890". -/
theorem pattern_penalties_characterized_witness :
    ("890" ≠ "") ∧
    (hasSequentialNumbers "890" = true ↔
      ∃ u a b c v, ("890").toList = u ++ a :: b :: c :: v ∧
        (ascDigitTriple a b c = true ∨ (a = '8' ∧ b = '9' ∧ c = '0'))) := by
  have h := pattern_penalties_characterized "890" (by decide)
  exact ⟨by decide, h.2.1⟩

/-- C7: the computed entropy is `length * log2(charspace)` where
`charspace` sums the class sizes 26, 26, 10 and 32 over the classes
present in the password, and a charspace of 0 yields entropy 0 rather
than applying log2 to 0. -/
theorem entropy_formula (p : String) :
    charSpace p =
      (if hasLowercaseChar p then 26 else 0) +
      (if hasUppercaseChar p then 26 else 0) +
      (if hasNumberChar p then 10 else 0) +
      (if hasSpecialChar p then 32 else 0) ∧
    (charSpace p ≠ 0 →
      calculateEntropy p = (p.length : ℝ) * Real.logb 2 (charSpace p : ℝ)) ∧
    (charSpace p = 0 → calculateEntropy p = 0) :=
  ⟨rfl, fun h => calculateEntropy_of_charSpace_ne_zero p h,
    fun h => calculateEntropy_of_charSpace_zero p h⟩

/-- Witness for `entropy_formula` at "abc" (charspace 26) and "---"
(charspace 0). -/
theorem entropy_formula_witness :
    charSpace "abc" ≠ 0 ∧
    calculateEntropy "abc" = ("abc".length : ℝ) * Real.logb 2 (charSpace "abc" : ℝ) ∧
    charSpace "---" = 0 ∧
    calculateEntropy "---" = 0 :=
  ⟨by decide, (entropy_formula "abc").2.1 (by decide), by decide,
    (entropy_formula "---").2.2 (by decide)⟩

/-- C8: for every entropy value at least 0, the crack-time estimator
returns seconds equal to 2^entropy / 2 / 10^9 and the display string
chosen by the spec's ascending threshold table with counts rounded to
the nearest unit, the raw seconds being returned alongside. -/
theorem crack_time_spec (e : ℝ) (he : 0 ≤ e) :
    (calculateCrackTime e).seconds = crackSecondsSpec e ∧
    (calculateCrackTime e).display = crackDisplaySpec (crackSecondsSpec e) := by
  have hsec : (2 : ℝ) ^ e / 2 / 1000000000 = crackSecondsSpec e := by
    unfold crackSecondsSpec; norm_num
  constructor
  · simp only [calculateCrackTime]
    split_ifs <;> exact hsec
  · simp only [calculateCrackTime, crackDisplaySpec, hsec]
    split_ifs <;> rfl

/-- Witness for `crack_time_spec` at entropy 0. -/
theorem crack_time_spec_witness :
    (0 : ℝ) ≤ 0 ∧ (calculateCrackTime 0).seconds = crackSecondsSpec 0 ∧
      (calculateCrackTime 0).display = crackDisplaySpec (crackSecondsSpec 0) :=
  ⟨le_refl 0, (crack_time_spec 0 (le_refl 0)).1, (crack_time_spec 0 (le_refl 0)).2⟩

/-- C9: the concrete password "password" matches the denylist and is
lowercase-only: 20 (length) + 15 (lowercase) - 40 (common) = -5,
clamped to 0, tier Very Weak, and the suggestions include the
common-password warning. -/
theorem password_concrete_scenario :
    (analyzePassword "password").score = 0 ∧
    (analyzePassword "password").strength = "Very Weak" ∧
    "Avoid common passwords" ∈ (analyzePassword "password").suggestions := by
  refine ⟨?_, ?_, ?_⟩
  · rw [analyzePassword_score "password" (by decide)]
    decide
  · rw [analyzePassword_strength "password" (by decide)]
    decide
  · rw [analyzePassword_suggestions "password" (by decide)]
    decide

/-- C10: a non-empty password with no character of any recognized class
(the symbol class being exactly the fixed set) has charspace 0; the
guard makes the entropy computation total and the entropy is 0, the
four class checks are false (so no class credit is earned), and the
crack-time display is Instantly. -/
theorem no_class_password (p : String) (hne : p ≠ "")
    (hl : hasLowercaseChar p = false) (hu : hasUppercaseChar p = false)
    (hn : hasNumberChar p = false) (hs : hasSpecialChar p = false) :
    charSpace p = 0 ∧
    calculateEntropy p = 0 ∧
    (analyzePassword p).entropy = 0 ∧
    (analyzePassword p).crackTime = "Instantly" ∧
    (analyzePassword p).checks.hasLowercase = false ∧
    (analyzePassword p).checks.hasUppercase = false ∧
    (analyzePassword p).checks.hasNumbers = false ∧
    (analyzePassword p).checks.hasSpecialChars = false := by
  have hcs : charSpace p = 0 := by simp [charSpace, hl, hu, hn, hs]
  have hent : calculateEntropy p = 0 := calculateEntropy_of_charSpace_zero p hcs
  refine ⟨hcs, hent, ?_, ?_, ?_, ?_, ?_, ?_⟩
  · rw [analyzePassword_entropy p hne, hent]
    simp
  · rw [analyzePassword_crackTime p hne, hent]
    simp only [calculateCrackTime]
    rw [Real.rpow_zero]
    rw [if_pos (by norm_num)]
  · rw [analyzePassword_checks p hne]; simp [checksFor, hl]
  · rw [analyzePassword_checks p hne]; simp [checksFor, hu]
  · rw [analyzePassword_checks p hne]; simp [checksFor, hn]
  · rw [analyzePassword_checks p hne]; simp [checksFor, hs]

/-- Witness for `no_class_password` at "-_+; ": hyphen, underscore,
plus, semicolon and space belong to none of the four classes. -/
theorem no_class_password_witness :
    ("-_+; " ≠ "") ∧ hasLowercaseChar "-_+; " = false ∧
    hasUppercaseChar "-_+; " = false ∧ hasNumberChar "-_+; " = false ∧
    hasSpecialChar "-_+; " = false ∧ charSpace "-_+; " = 0 ∧
    calculateEntropy "-_+; " = 0 ∧ (analyzePassword "-_+; ").entropy = 0 ∧
    (analyzePassword "-_+; ").crackTime = "Instantly" := by
  have h := no_class_password "-_+; " (by decide) (by decide) (by decide)
    (by decide) (by decide)
  exact ⟨by decide, by decide, by decide, by decide, by decide,
    h.1, h.2.1, h.2.2.1, h.2.2.2.1⟩

end PSChecker
